import Mathlib

/-!
Shallow embedding of `src/modules/beelineReader.ts` (the BeeLineReaderService
of the waspline-reader plugin) and proofs about its colorization, restore,
debounce and teardown behaviour.

Conventions of the embedding:
* JS numbers are modelled exactly: color channels stay `Int`, and every
  floating point intermediate of the color pipeline is modelled bit
  exactly as an IEEE 754 binary64 value, represented as a dyadic rational
  `F` (integer significand times a power of two). `round53` implements
  round to nearest, ties to even, at 53 significand bits; `fadd`, `fsub`,
  `fmul` and `fdiv48` are the correctly rounded binary64 operations on
  the exact dyadic values (no overflow or subnormals arise here), and JS
  `Math.round` is `mathRound`, the exact nearest integer with ties toward
  positive infinity of the binary64 value. The running character offset
  stays `Nat`: it is exact in binary64 for every realizable length
  (below 2^53).
* A DOM span of the text layer becomes `Span`: its child content
  (`SpanContent`, either one text node or a list of generated single
  character nodes), and the two dataset attributes `beelineOriginal`
  and `beelineApplied` as `Option String` (a missing attribute is `none`;
  JS truthiness of a dataset read is `datasetTruthy`).
* `Array.from(sourceText)` iterates Unicode code points; `String.toList`
  gives the list of code points of a Lean string, matching it.
* The mutation observer callback and `setTimeout`/`clearTimeout` become a
  pure scheduler state (`Sched`) of active timers keyed by handle ids.
* The reader registry `stateByReader : Map<string, ReaderState>` becomes
  an association list `Registry`.
-/

namespace Waspline

/-- An RGB color; the source renders it as the string `rgb(r, g, b)`,
the three channel values are what we model. -/
structure RGB where
  r : Int
  g : Int
  b : Int
deriving DecidableEq, Repr

/-- Source constant BLUE, the gradient anchor color. -/
def BLUE : RGB := ⟨26, 115, 232⟩

/-- Source constant RED, the gradient accent color. -/
def RED : RGB := ⟨220, 38, 38⟩

/-- Source constant BLACK, the end color chosen when the theme is light. -/
def BLACK : RGB := ⟨17, 24, 39⟩

/-- Source constant WHITE, the end color chosen when the theme is dark. -/
def WHITE : RGB := ⟨241, 245, 249⟩

/-- Source constant CHARACTERS_PER_CYCLE. -/
def CHARACTERS_PER_CYCLE : Nat := 48

/-- Bit length of a natural number, by fuel recursion (fuel 128 covers
every magnitude arising in this development, which stays below 2^120). -/
def bitsAux : Nat → Nat → Nat
  | 0, _ => 0
  | fuel + 1, n => if n = 0 then 0 else bitsAux fuel (n / 2) + 1

/-- Bit length: the least w with n < 2^w. -/
def bits (n : Nat) : Nat := bitsAux 128 n

/-- An IEEE 754 binary64 value carried exactly as the dyadic rational
m * 2^e. The representation is not normalized; operations re-round to 53
significand bits, which is all that binary64 semantics needs on the
normal range this program stays in. -/
structure F where
  m : Int
  e : Int
deriving DecidableEq, Repr

/-- The exact rational value of a dyadic. -/
def F.toRat (x : F) : ℚ := (x.m : ℚ) * (2 : ℚ) ^ x.e

/-- An integer as a binary64 value (exact for the magnitudes used here). -/
def intF (a : Int) : F := ⟨a, 0⟩

/-- The binary64 constant 0.5. -/
def halfF : F := ⟨1, -1⟩

/-- The binary64 constant 2. -/
def twoF : F := ⟨2, 0⟩

/-- Round the exact dyadic m * 2^e to 53 significand bits, to nearest
with ties to even: IEEE 754 binary64 rounding for the normal range. -/
def round53 (m e : Int) : F :=
  let n := m.natAbs
  let k := bits n - 53
  if k = 0 then ⟨m, e⟩
  else
    let d := 2 ^ k
    let q := n / d
    let r := n % d
    let h := d / 2
    let q2 := if r > h then q + 1 else if r < h then q else if q % 2 = 0 then q else q + 1
    ⟨if m < 0 then -(q2 : Int) else (q2 : Int), e + k⟩

/-- Correctly rounded binary64 multiplication. -/
def fmul (a b : F) : F := round53 (a.m * b.m) (a.e + b.e)

/-- Correctly rounded binary64 addition (exact alignment, then rounding). -/
def fadd (a b : F) : F :=
  if a.e ≤ b.e then round53 (a.m + b.m * 2 ^ (b.e - a.e).toNat) a.e
  else round53 (a.m * 2 ^ (a.e - b.e).toNat + b.m) b.e

/-- Binary64 negation (exact). -/
def fneg (a : F) : F := ⟨-a.m, a.e⟩

/-- Correctly rounded binary64 subtraction. -/
def fsub (a b : F) : F := fadd a (fneg b)

/-- The binary64 comparison a < b (exact on the represented values). -/
def flt (a b : F) : Bool :=
  if a.e ≤ b.e then decide (a.m < b.m * 2 ^ (b.e - a.e).toNat)
  else decide (a.m * 2 ^ (a.e - b.e).toNat < b.m)

/-- The correctly rounded binary64 quotient m / 48 for 0 <= m < 48: the
scaled integer quotient is cut to 53 bits, the division remainder acting
as the sticky part for the tie test (ties to even). -/
def fdiv48 (m : Nat) : F :=
  if m = 0 then ⟨0, 0⟩
  else
    let n := m * 2 ^ 58
    let q := n / 48
    let r := n % 48
    let k := bits q - 53
    let d := 2 ^ k
    let qh := q / d
    let rem := q % d
    let num := rem * 48 + r
    let den := 48 * d
    let qr := if 2 * num > den then qh + 1
      else if 2 * num < den then qh
      else if qh % 2 = 0 then qh else qh + 1
    ⟨(qr : Int), -58 + (k : Int)⟩

/-- JS `Math.round` applied to a binary64 value: the nearest integer with
ties toward positive infinity, exactly floor of x + 1/2 of the exact
value (ECMA specifies this on the value itself, with no further float
arithmetic). -/
def mathRound (x : F) : Int :=
  if 0 ≤ x.e then x.m * 2 ^ x.e.toNat
  else
    let n := (-x.e).toNat
    (x.m + 2 ^ (n - 1)).ediv (2 ^ n)

/-- One channel of `interpolate`: `Math.round(from[i] + (to[i] - from[i]) * t)`,
with the subtraction exact (small integers), the multiplication and the
addition correctly rounded binary64 operations. -/
def interpolateChannel (a b : Int) (t : F) : Int :=
  mathRound (fadd (intF a) (fmul (intF (b - a)) t))

/-- Source `interpolate(from, to, t)`, per channel. -/
def interpolate (f g : RGB) (t : F) : RGB :=
  ⟨interpolateChannel f.r g.r t, interpolateChannel f.g g.g t,
    interpolateChannel f.b g.b t⟩

/-- Source `sampleColor(t, endColor)`, the comparison and both branch
parameters computed in binary64 exactly as the source writes them. -/
def sampleColor (t : F) (endColor : RGB) : RGB :=
  if flt t halfF then interpolate BLUE RED (fmul t twoF)
  else interpolate RED endColor (fmul (fsub t halfF) twoF)

/-- The exact per-channel linear blend the spec and claim describe:
a + (b - a) * u over the rationals, before any rounding. -/
def exactBlend (a b : Int) (u : ℚ) : ℚ := (a : ℚ) + ((b : ℚ) - (a : ℚ)) * u

/-- Rounding an exact rational to the nearest integer, ties toward
positive infinity (the rounding JS `Math.round` denotes). -/
def roundNearest (q : ℚ) : Int := ⌊q + 1 / 2⌋

/-- A generated child node: one character with an inline color style. -/
structure CharNode where
  ch : Char
  color : RGB
deriving DecidableEq, Repr

/-- Child content of a text layer span: the original single text node, or
the fragment of generated per-character nodes installed by colorization. -/
inductive SpanContent where
  | text (s : String)
  | charNodes (l : List CharNode)
deriving DecidableEq, Repr

/-- A text layer span: its children plus the two dataset attributes the
service uses (`data-beeline-original`, `data-beeline-applied`). -/
structure Span where
  children : SpanContent
  beelineOriginal : Option String
  beelineApplied : Option String
deriving DecidableEq, Repr

/-- The `textContent` of a span: the concatenation of its text. -/
def Span.textContent (s : Span) : String :=
  match s.children with
  | SpanContent.text t => t
  | SpanContent.charNodes l => String.mk (l.map CharNode.ch)

/-- JS truthiness of a dataset attribute read: present and nonempty. -/
def datasetTruthy (o : Option String) : Bool :=
  o.getD "" ≠ ""

/-- Source `getSourceText(span)`: return `dataset.beelineOriginal` when
truthy, else capture the current `textContent` into it and return that.
The returned pair is (source text, span after any capture). -/
def getSourceText (span : Span) : String × Span :=
  if datasetTruthy span.beelineOriginal then (span.beelineOriginal.getD "", span)
  else
    let text := span.textContent
    (text, { span with beelineOriginal := some text })

/-- The normalized cycle position of global character offset k:
`((charOffset + i) % CHARACTERS_PER_CYCLE) / CHARACTERS_PER_CYCLE`, the
division performed in binary64 (the integer offset arithmetic is exact in
binary64 below 2^53, so it stays `Nat`). -/
def cycleT (k : Nat) : F :=
  fdiv48 (k % CHARACTERS_PER_CYCLE)

/-- The loop body of `refreshReader` for one span (lines 139-160 of the
source): obtain the source text, skip when falsy, else build one colored
node per code point at `t = cycleT (charOffset + i)`, replace the children,
set `data-beeline-applied = "1"` and advance the offset by the number of
code points. Returns (updated span, new offset, emitted fragment). -/
def colorizeSpan (endColor : RGB) (span : Span) (charOffset : Nat) :
    Span × Nat × List CharNode :=
  let p := getSourceText span
  if p.1 = "" then (p.2, charOffset, [])
  else
    let chars := p.1.toList
    let nodes := chars.enum.map fun ic =>
      { ch := ic.2, color := sampleColor (cycleT (charOffset + ic.1)) endColor }
    ({ p.2 with children := SpanContent.charNodes nodes, beelineApplied := some "1" },
      charOffset + chars.length, nodes)

/-- The enabled branch of `refreshReader`: walk the ordered span list with
one running character offset, never reset between spans. Returns the
updated spans and the concatenation of all emitted fragments. -/
def colorizePass (endColor : RGB) : List Span → Nat → List Span × List CharNode
  | [], _ => ([], [])
  | span :: rest, off =>
    let r := colorizeSpan endColor span off
    let rest' := colorizePass endColor rest r.2.1
    (r.1 :: rest'.1, r.2.2 ++ rest'.2)

/-- Source `restoreSpan(span)`: spans without `beelineApplied = "1"` are
returned untouched; otherwise the children are replaced by one text node
holding `dataset.beelineOriginal || textContent` and the applied marker is
deleted. -/
def restoreSpan (span : Span) : Span :=
  if span.beelineApplied ≠ some "1" then span
  else
    let newText :=
      if datasetTruthy span.beelineOriginal then span.beelineOriginal.getD ""
      else span.textContent
    { span with children := SpanContent.text newText, beelineApplied := none }

/-- Per-reader mutable state (source interface `ReaderState`): the enabled
flag and the opaque observer and timer handles, modelled as ids. -/
structure ReaderState where
  enabled : Bool
  observer : Option Nat
  refreshTimer : Option Nat
deriving DecidableEq, Repr

/-- The ambient inputs one `refreshReader` call reads from the reader:
whether `_iframeWindow` is present, the two theme signals, and the current
ordered list of `.textLayer > span` elements. -/
structure ReaderEnv where
  iframeAvailable : Bool
  themeDarkClass : Bool
  prefersDark : Bool
  spans : List Span
deriving Repr

/-- Source `isDarkTheme(doc, win)`: root element has class `theme-dark`,
or the media query prefers-color-scheme dark matches. -/
def isDarkTheme (env : ReaderEnv) : Bool :=
  env.themeDarkClass || env.prefersDark

/-- The end color picked at line 136: WHITE when the theme is dark,
BLACK otherwise. -/
def endColorFor (dark : Bool) : RGB :=
  if dark then WHITE else BLACK

/-- Source `refreshReader(reader)`: no-op without an iframe window; with
the instance disabled, restore every span; otherwise run one colorize pass
from offset 0 with the end color sampled from the current theme. Returns
the resulting span list (the DOM after the call). -/
def refreshReader (env : ReaderEnv) (state : ReaderState) : List Span :=
  if ¬ env.iframeAvailable then env.spans
  else if ¬ state.enabled then env.spans.map restoreSpan
  else (colorizePass (endColorFor (isDarkTheme env)) env.spans 0).1

/-- The toggle button click handler (lines 34-38): flip `enabled`, update
the button, call `refreshReader` with the new state. The handler does not
touch `refreshTimer` or `observer`. -/
def toggleClick (env : ReaderEnv) (state : ReaderState) : ReaderState × List Span :=
  let state1 := { state with enabled := ! state.enabled }
  (state1, refreshReader env state1)

/-- The debounce timer callback (lines 110-113): clear the handle, then
run `refreshReader` against the current state. -/
def timerFire (env : ReaderEnv) (state : ReaderState) : ReaderState × List Span :=
  let state1 := { state with refreshTimer := none }
  (state1, refreshReader env state1)

/-- A pure model of the window timer API: a fresh-handle counter and the
list of active timers as (handle, absolute fire time) pairs. -/
structure Sched where
  nextId : Nat
  active : List (Nat × Nat)
deriving DecidableEq, Repr

/-- `clearTimeout(id)`: drop the timer with that handle, if any. -/
def clearTimeout (s : Sched) (id : Nat) : Sched :=
  { s with active := s.active.filter fun p => p.1 ≠ id }

/-- `setTimeout(cb, delay)` called at absolute time `now`: allocate a fresh
handle firing at `now + delay`. Returns (handle, new scheduler). -/
def setTimeout (s : Sched) (now delay : Nat) : Nat × Sched :=
  (s.nextId, ⟨s.nextId + 1, s.active ++ [(s.nextId, now + delay)]⟩)

/-- One added node as the observer callback inspects it: whether it is an
HTMLElement of the iframe window, whether it matches `.textLayer`, and
whether it contains a `.textLayer` descendant. -/
structure AddedNode where
  isHTMLElement : Bool
  matchesTextLayer : Bool
  containsTextLayer : Bool
deriving DecidableEq, Repr

/-- The per-node test of lines 92-100: an HTMLElement that matches
`.textLayer` or has a `.textLayer` descendant. -/
def nodeQualifies (n : AddedNode) : Bool :=
  n.isHTMLElement && (n.matchesTextLayer || n.containsTextLayer)

/-- One MutationRecord: the nodes it reports as added. -/
structure MutationRecord where
  addedNodes : List AddedNode
deriving DecidableEq, Repr

/-- The batch test of lines 90-105: some record has some qualifying node. -/
def batchQualifies (muts : List MutationRecord) : Bool :=
  muts.any fun m => m.addedNodes.any nodeQualifies

/-- The observer callback (lines 89-114) for one mutation batch arriving at
absolute time `now`: return unless the batch qualifies; else clear any
pending timer, then schedule a new 120-delay timer and store its handle. -/
def observerCallback (muts : List MutationRecord) (now : Nat)
    (state : ReaderState) (sched : Sched) : ReaderState × Sched :=
  if ¬ batchQualifies muts then (state, sched)
  else
    let sched1 :=
      match state.refreshTimer with
      | some id => clearTimeout sched id
      | none => sched
    let r := setTimeout sched1 now 120
    ({ state with refreshTimer := some r.1 }, r.2)

/-- Fold the observer callback over a sequence of (arrival time, batch). -/
def processBatches : List (Nat × List MutationRecord) → ReaderState → Sched →
    ReaderState × Sched
  | [], state, sched => (state, sched)
  | b :: rest, state, sched =>
    let r := observerCallback b.2 b.1 state sched
    processBatches rest r.1 r.2

/-- The ambient inputs `observeReaderTextLayer` reads: whether
`_iframeWindow` and `document.body` are present. -/
structure ObserveEnv where
  iframeAvailable : Bool
  bodyAvailable : Bool
deriving DecidableEq, Repr

/-- Source `observeReaderTextLayer(reader)` (lines 73-117): no-op without
an iframe window, no-op when `state.observer` is already set, no-op without
a body; otherwise construct and attach a new MutationObserver, modelled as
storing the fresh handle. The Bool reports whether an observer was created. -/
def observeReaderTextLayer (env : ObserveEnv) (state : ReaderState)
    (freshHandle : Nat) : ReaderState × Bool :=
  if ¬ env.iframeAvailable then (state, false)
  else if state.observer.isSome then (state, false)
  else if ¬ env.bodyAvailable then (state, false)
  else ({ state with observer := some freshHandle }, true)

/-- Fold repeated install calls, counting how many observers get created. -/
def installMany : List (ObserveEnv × Nat) → ReaderState → ReaderState × Nat
  | [], state => (state, 0)
  | c :: rest, state =>
    let r := observeReaderTextLayer c.1 state c.2
    let rest' := installMany rest r.1
    (rest'.1, (if r.2 then 1 else 0) + rest'.2)

/-- The registry `stateByReader`, an association of instance id to state. -/
abbrev Registry := List (String × ReaderState)

/-- `stateByReader.get(key)`. -/
def lookupState : Registry → String → Option ReaderState
  | [], _ => none
  | e :: rest, key => if e.1 = key then some e.2 else lookupState rest key

/-- A host reader instance as `stop`/`clearReader` see it: its id, whether
its iframe window is available, and its current text layer spans. -/
structure Reader where
  instanceID : String
  iframeAvailable : Bool
  spans : List Span
deriving DecidableEq, Repr

/-- The observable effects of one `clearReader` call: whether
`clearTimeout` ran, whether `observer.disconnect()` ran, and the restored
span list when a restore pass ran over the document. -/
structure ClearEffects where
  timerCancelled : Bool
  observerDisconnected : Bool
  restoredSpans : Option (List Span)
deriving DecidableEq, Repr

/-- Source `clearReader(reader)` (lines 182-202): return when the registry
has no state for the id; cancel the timer only when one is pending and the
iframe window exists; disconnect the observer when present; restore every
span when the iframe window exists. -/
def clearReader (reg : Registry) (r : Reader) : ClearEffects :=
  match lookupState reg r.instanceID with
  | none => ⟨false, false, none⟩
  | some st =>
    ⟨st.refreshTimer.isSome && r.iframeAvailable,
      st.observer.isSome,
      if r.iframeAvailable then some (r.spans.map restoreSpan) else none⟩

/-- Source `stop()` (lines 55-61): after unregistering the toolbar handler
(external, not modelled), run `clearReader` over every reader in the HOST
list `Zotero.Reader._readers`, then clear the registry. Returns the per
reader effects and the emptied registry. -/
def stop (reg : Registry) (readers : List Reader) : List ClearEffects × Registry :=
  (readers.map (clearReader reg), [])

/-- The source text of every span in document order, flattened into one
list of code points; spans with falsy source text contribute nothing. -/
def sourceChars : List Span → List Char
  | [] => []
  | s :: rest => ((getSourceText s).1).toList ++ sourceChars rest

/-- Scheduler invariant tying the stored handle to the active timers: the
instance either has no pending timer and no active timer, or exactly the
one active timer its handle names. -/
def SchedInv (st : ReaderState) (sched : Sched) : Prop :=
  (st.refreshTimer = none ∧ sched.active = [])
  ∨ ∃ id t, st.refreshTimer = some id ∧ sched.active = [(id, t)]

/-- All three channels of a color lie in [0, 255]. -/
def inChannelRange (c : RGB) : Prop :=
  0 ≤ c.r ∧ c.r ≤ 255 ∧ 0 ≤ c.g ∧ c.g ≤ 255 ∧ 0 ≤ c.b ∧ c.b ≤ 255

instance (c : RGB) : Decidable (inChannelRange c) := by
  unfold inChannelRange; infer_instance

/-- A color counts as light when its mean channel brightness is at least
half of the maximum, that is 2 * (r + g + b) is at least 765. -/
def isLightColor (c : RGB) : Prop :=
  765 ≤ 2 * (c.r + c.g + c.b)

instance (c : RGB) : Decidable (isLightColor c) := by
  unfold isLightColor; infer_instance

/-- A whitespace-only span, fresh (nothing captured, nothing applied). -/
def wsSpan : Span := ⟨SpanContent.text " ", none, none⟩

/-- A fresh span with empty text. -/
def emptySpan : Span := ⟨SpanContent.text "", none, none⟩

/-- A fresh two-character span. -/
def abSpan : Span := ⟨SpanContent.text "ab", none, none⟩

/-- The first character of `abSpan` as its own fresh span. -/
def aSpan : Span := ⟨SpanContent.text "a", none, none⟩

/-- The second character of `abSpan` as its own fresh span. -/
def bSpan : Span := ⟨SpanContent.text "b", none, none⟩

/-- A span whose captured original is the empty string while the renderer
has since put the text `x` into it. -/
def staleSpan : Span := ⟨SpanContent.text "x", some "", none⟩

/-- A minimal viewer environment: iframe present, light theme, no spans. -/
def env0 : ReaderEnv := ⟨true, false, false, []⟩

/-- A qualifying mutation batch: one record adding a `.textLayer` element. -/
def muts0 : List MutationRecord := [⟨[⟨true, true, false⟩]⟩]

/-- After `getSourceText`, the stored original equals the returned source. -/
theorem getSourceText_stored (span : Span) :
    ((getSourceText span).2).beelineOriginal = some (getSourceText span).1 := by
  unfold getSourceText
  split
  · next h =>
    cases ho : span.beelineOriginal with
    | none => rw [ho] at h; simp [datasetTruthy] at h
    | some s => simp [ho]
  · rfl

/-- `getSourceText` never touches the children of the span. -/
theorem getSourceText_children (span : Span) :
    ((getSourceText span).2).children = span.children := by
  unfold getSourceText
  split <;> rfl

/-- `getSourceText` never touches the applied marker of the span. -/
theorem getSourceText_applied (span : Span) :
    ((getSourceText span).2).beelineApplied = span.beelineApplied := by
  unfold getSourceText
  split <;> rfl

/-- On a span with no captured original, `getSourceText` returns the
current text content. -/
theorem getSourceText_none (span : Span) (h : span.beelineOriginal = none) :
    (getSourceText span).1 = span.textContent := by
  unfold getSourceText datasetTruthy
  rw [h]
  simp

/-- On a span whose captured original is a nonempty string, `getSourceText`
returns it and changes nothing. -/
theorem getSourceText_some (span : Span) (s : String)
    (h : span.beelineOriginal = some s) (hs : s ≠ "") :
    getSourceText span = (s, span) := by
  unfold getSourceText datasetTruthy
  rw [h]
  simp [hs]

/-- A span colorized with nonempty source keeps the source as its stored
original and carries the applied marker. -/
theorem colorizeSpan_applied_fields (e : RGB) (span : Span) (off : Nat)
    (h : (getSourceText span).1 ≠ "") :
    ((colorizeSpan e span off).1).beelineOriginal = some (getSourceText span).1
    ∧ ((colorizeSpan e span off).1).beelineApplied = some "1" := by
  unfold colorizeSpan
  rw [if_neg h]
  exact ⟨getSourceText_stored span, rfl⟩

/-- Restoring a span right after a colorization with nonempty source puts
exactly that source text back and clears the applied marker. -/
theorem restoreSpan_colorizeSpan (e : RGB) (span : Span) (off : Nat)
    (h : (getSourceText span).1 ≠ "") :
    restoreSpan (colorizeSpan e span off).1
      = { (colorizeSpan e span off).1 with
          children := SpanContent.text (getSourceText span).1,
          beelineApplied := none } := by
  obtain ⟨ho, ha⟩ := colorizeSpan_applied_fields e span off h
  unfold restoreSpan
  rw [if_neg (by simp [ha])]
  simp [datasetTruthy, ho, h]

/-- Restoring a span that never got the applied marker changes nothing. -/
theorem restoreSpan_not_applied (span : Span) (h : span.beelineApplied ≠ some "1") :
    restoreSpan span = span := by
  unfold restoreSpan
  rw [if_pos h]

/-- A restored span never carries the applied marker. -/
theorem restoreSpan_clears_marker (span : Span) :
    (restoreSpan span).beelineApplied ≠ some "1" := by
  unfold restoreSpan
  split
  · next h => exact h
  · simp

/-- Claim C2: every span that apply has colorized is returned by restore to
exactly the source string captured before its first colorization, bit for
bit (for a fresh span this is its pre-colorization text content), also
after a repeated apply pass; and a span never marked colorized is left
untouched by restore. -/
theorem C2_restore_exact (e1 e2 : RGB) (o1 o2 : Nat) (span : Span)
    (h : (getSourceText span).1 ≠ "") :
    (∀ sp : Span, sp.beelineApplied ≠ some "1" → restoreSpan sp = sp)
    ∧ (span.beelineOriginal = none → (getSourceText span).1 = span.textContent)
    ∧ restoreSpan (colorizeSpan e1 span o1).1
        = { (colorizeSpan e1 span o1).1 with
            children := SpanContent.text (getSourceText span).1,
            beelineApplied := none }
    ∧ restoreSpan (colorizeSpan e2 (colorizeSpan e1 span o1).1 o2).1
        = { (colorizeSpan e2 (colorizeSpan e1 span o1).1 o2).1 with
            children := SpanContent.text (getSourceText span).1,
            beelineApplied := none } := by
  refine ⟨restoreSpan_not_applied, getSourceText_none span, restoreSpan_colorizeSpan e1 span o1 h, ?_⟩
  have hsrc : getSourceText (colorizeSpan e1 span o1).1
      = ((getSourceText span).1, (colorizeSpan e1 span o1).1) :=
    getSourceText_some _ _ (colorizeSpan_applied_fields e1 span o1 h).1 h
  have h2 : (getSourceText (colorizeSpan e1 span o1).1).1 ≠ "" := by
    rw [hsrc]; exact h
  have := restoreSpan_colorizeSpan e2 (colorizeSpan e1 span o1).1 o2 h2
  rw [hsrc] at this
  exact this

/-- Witness for C2 on the concrete fresh span holding `a b`. -/
theorem C2_restore_exact_witness :
    ((getSourceText ⟨SpanContent.text "a b", none, none⟩).1 ≠ "")
    ∧ ((∀ sp : Span, sp.beelineApplied ≠ some "1" → restoreSpan sp = sp)
      ∧ ((⟨SpanContent.text "a b", none, none⟩ : Span).beelineOriginal = none →
          (getSourceText ⟨SpanContent.text "a b", none, none⟩).1
            = Span.textContent ⟨SpanContent.text "a b", none, none⟩)
      ∧ restoreSpan (colorizeSpan BLACK ⟨SpanContent.text "a b", none, none⟩ 0).1
          = { (colorizeSpan BLACK ⟨SpanContent.text "a b", none, none⟩ 0).1 with
              children := SpanContent.text (getSourceText ⟨SpanContent.text "a b", none, none⟩).1,
              beelineApplied := none }
      ∧ restoreSpan (colorizeSpan WHITE
            (colorizeSpan BLACK ⟨SpanContent.text "a b", none, none⟩ 0).1 5).1
          = { (colorizeSpan WHITE
                (colorizeSpan BLACK ⟨SpanContent.text "a b", none, none⟩ 0).1 5).1 with
              children := SpanContent.text (getSourceText ⟨SpanContent.text "a b", none, none⟩).1,
              beelineApplied := none }) :=
  ⟨by decide, C2_restore_exact BLACK WHITE 0 5 ⟨SpanContent.text "a b", none, none⟩ (by decide)⟩

/-- Claim C4 counterexample: a span whose original text is a single space
is NOT skipped — the colorize loop body marks it applied, replaces its
children by one generated node, and advances the running offset by 1. The
guard `if (!sourceText) continue` only catches the empty string, since a
whitespace-only string is truthy in JS. -/
theorem C4_counterexample :
    wsSpan.textContent = " "
    ∧ (colorizeSpan BLACK wsSpan 0).2.1 = 1
    ∧ ((colorizeSpan BLACK wsSpan 0).1).beelineApplied = some "1"
    ∧ ¬ ((colorizeSpan BLACK wsSpan 0).2.1 = 0
          ∧ ((colorizeSpan BLACK wsSpan 0).1).beelineApplied = none) := by
  refine ⟨rfl, by decide, by decide, ?_⟩
  intro hcl
  exact absurd hcl.1 (by decide)

/-- Claim C4 amended: only a span whose source text is the empty string is
skipped — left uncolorized, emitting nothing and leaving the running
offset of every subsequent span unchanged; any span with nonempty source
text, a whitespace-only one included, is colorized and advances the offset
by its code point count. -/
theorem C4_empty_skip (e : RGB) (span : Span) (off : Nat)
    (h : (getSourceText span).1 = "") :
    (colorizeSpan e span off).2.1 = off
    ∧ ((colorizeSpan e span off).1).children = span.children
    ∧ ((colorizeSpan e span off).1).beelineApplied = span.beelineApplied
    ∧ (colorizeSpan e span off).2.2 = []
    ∧ ∀ sp : Span,
        (colorizeSpan e sp off).2.1 = off + ((getSourceText sp).1).toList.length := by
  refine ⟨?_, ?_, ?_, ?_, ?_⟩
  · unfold colorizeSpan; rw [if_pos h]
  · unfold colorizeSpan; rw [if_pos h]; exact getSourceText_children span
  · unfold colorizeSpan; rw [if_pos h]; exact getSourceText_applied span
  · unfold colorizeSpan; rw [if_pos h]
  · intro sp
    unfold colorizeSpan
    by_cases hsp : (getSourceText sp).1 = ""
    · rw [if_pos hsp, hsp]
      rfl
    · rw [if_neg hsp]

/-- Witness for the amended C4 on the concrete empty span. -/
theorem C4_empty_skip_witness :
    ((getSourceText emptySpan).1 = "")
    ∧ ((colorizeSpan WHITE emptySpan 3).2.1 = 3
      ∧ ((colorizeSpan WHITE emptySpan 3).1).children = emptySpan.children
      ∧ ((colorizeSpan WHITE emptySpan 3).1).beelineApplied = emptySpan.beelineApplied
      ∧ (colorizeSpan WHITE emptySpan 3).2.2 = []
      ∧ ∀ sp : Span,
          (colorizeSpan WHITE sp 3).2.1 = 3 + ((getSourceText sp).1).toList.length) :=
  ⟨by decide, C4_empty_skip WHITE emptySpan 3 (by decide)⟩

/-- Claim C6 counterexample: an original captured as the empty string is
re-captured on the next pass. On `staleSpan` the stored original is the
empty string, yet `getSourceText` overwrites it with the current text `x`,
because the guard reads the dataset with JS truthiness, under which the
empty string counts as absent. -/
theorem C6_counterexample :
    staleSpan.beelineOriginal = some ""
    ∧ ((getSourceText staleSpan).2).beelineOriginal = some "x"
    ∧ ¬ ((getSourceText staleSpan).2).beelineOriginal = some "" := by
  refine ⟨rfl, by decide, by decide⟩

/-- Claim C6 amended: once captured as a NONEMPTY string, the original is
never re-captured or overwritten: `getSourceText` returns the stored value
and leaves the span unchanged, and a further colorize pass keeps the
stored original intact (so already-colorized content is never re-encoded
as the original); only an original captured as the empty string is subject
to re-capture. -/
theorem C6_capture_once (span : Span) (s : String) (e : RGB) (off : Nat)
    (h : span.beelineOriginal = some s) (hs : s ≠ "") :
    getSourceText span = (s, span)
    ∧ ((colorizeSpan e span off).1).beelineOriginal = some s := by
  have hg := getSourceText_some span s h hs
  refine ⟨hg, ?_⟩
  unfold colorizeSpan
  rw [hg]
  by_cases hempty : s = ""
  · exact absurd hempty hs
  · rw [if_neg hempty]
    exact h

/-- Witness for the amended C6 on a span with captured original `x` whose
current text has drifted to `y`. -/
theorem C6_capture_once_witness :
    ((⟨SpanContent.text "y", some "x", none⟩ : Span).beelineOriginal = some "x")
    ∧ ("x" : String) ≠ ""
    ∧ (getSourceText ⟨SpanContent.text "y", some "x", none⟩
          = ("x", ⟨SpanContent.text "y", some "x", none⟩)
      ∧ ((colorizeSpan RED ⟨SpanContent.text "y", some "x", none⟩ 2).1).beelineOriginal
          = some "x") :=
  ⟨rfl, by decide, C6_capture_once ⟨SpanContent.text "y", some "x", none⟩ "x" RED 2 rfl (by decide)⟩

/-- Equation for the skipped branch of the colorize loop body. -/
theorem colorizeSpan_empty (e : RGB) (span : Span) (off : Nat)
    (h : (getSourceText span).1 = "") :
    colorizeSpan e span off = ((getSourceText span).2, off, []) := by
  unfold colorizeSpan
  rw [if_pos h]

/-- Equation for the colorizing branch of the colorize loop body. -/
theorem colorizeSpan_nonempty (e : RGB) (span : Span) (off : Nat)
    (h : (getSourceText span).1 ≠ "") :
    colorizeSpan e span off =
      ({ (getSourceText span).2 with
          children := SpanContent.charNodes
            (((getSourceText span).1).toList.enum.map fun ic =>
              { ch := ic.2, color := sampleColor (cycleT (off + ic.1)) e }),
          beelineApplied := some "1" },
        off + ((getSourceText span).1).toList.length,
        ((getSourceText span).1).toList.enum.map fun ic =>
          { ch := ic.2, color := sampleColor (cycleT (off + ic.1)) e }) := by
  unfold colorizeSpan
  rw [if_neg h]

/-- The per-span fragment built from a local index i at running offset off
equals the fragment built from the global position directly: shifting the
enumeration base absorbs the offset addition. -/
theorem colorizeNodes_enumFrom (e : RGB) (off : Nat) (chars : List Char) :
    (chars.enum.map fun ic =>
        ({ ch := ic.2, color := sampleColor (cycleT (off + ic.1)) e } : CharNode))
      = (List.enumFrom off chars).map fun p =>
          ({ ch := p.2, color := sampleColor (cycleT p.1) e } : CharNode) := by
  apply List.ext_getElem
  · simp [List.enum]
  · intro i h1 h2
    simp [List.enum, List.getElem_enumFrom]

/-- Closed form of the emission of one colorize pass: the flattened source
text enumerated from the starting offset, each position k getting the
color `sampleColor (cycleT k)`. The enumeration runs straight through span
boundaries, which is the single running offset of the source. -/
theorem colorizePass_emit (e : RGB) (spans : List Span) :
    ∀ off : Nat,
      (colorizePass e spans off).2
        = (List.enumFrom off (sourceChars spans)).map
            fun p => ({ ch := p.2, color := sampleColor (cycleT p.1) e } : CharNode) := by
  induction spans with
  | nil => intro off; rfl
  | cons span rest ih =>
    intro off
    simp only [colorizePass, sourceChars]
    by_cases h : (getSourceText span).1 = ""
    · have hnil : ((getSourceText span).1).toList = [] := by rw [h]; rfl
      rw [colorizeSpan_empty e span off h, hnil]
      simpa using ih off
    · rw [colorizeSpan_nonempty e span off h, List.enumFrom_append, List.map_append,
        ih (off + ((getSourceText span).1).toList.length), colorizeNodes_enumFrom]

/-- One colorize pass emits exactly one node per source code point. -/
theorem colorizePass_emit_length (e : RGB) (spans : List Span) (off : Nat) :
    (colorizePass e spans off).2.length = (sourceChars spans).length := by
  rw [colorizePass_emit]
  simp

/-- Claim C1: over one colorization pass a single running code point
offset is shared by all spans and never reset at a span boundary: the node
emitted at global offset k carries the k-th logical character and the
color `sampleColor ((k mod 48) / 48) endColor`; consequently two span
lists carrying the same flattened character sequence, however differently
it is split across span boundaries, produce identical emissions. -/
theorem C1_gradient_continuity (e : RGB) (spans spans2 : List Span) (k : Nat)
    (h : k < (colorizePass e spans 0).2.length)
    (hsplit : sourceChars spans2 = sourceChars spans) :
    ((colorizePass e spans 0).2.get ⟨k, h⟩).color = sampleColor (cycleT k) e
    ∧ ((colorizePass e spans 0).2).map CharNode.ch = sourceChars spans
    ∧ (colorizePass e spans2 0).2 = (colorizePass e spans 0).2 := by
  have hemit := colorizePass_emit e spans 0
  have hemit2 := colorizePass_emit e spans2 0
  refine ⟨?_, ?_, ?_⟩
  · simp only [List.get_eq_getElem, hemit, List.getElem_map, List.getElem_enumFrom]
    simp
  · rw [hemit, List.map_map]
    exact List.enumFrom_map_snd 0 (sourceChars spans)
  · rw [hemit, hemit2, hsplit]

/-- Witness for C1: the text `ab` in one span against the split `a`, `b`
in two spans, at global offset 1. -/
theorem C1_gradient_continuity_witness :
    (1 < (colorizePass BLACK [abSpan] 0).2.length)
    ∧ sourceChars [aSpan, bSpan] = sourceChars [abSpan]
    ∧ (((colorizePass BLACK [abSpan] 0).2.get ⟨1, by decide⟩).color
          = sampleColor (cycleT 1) BLACK
      ∧ ((colorizePass BLACK [abSpan] 0).2).map CharNode.ch = sourceChars [abSpan]
      ∧ (colorizePass BLACK [aSpan, bSpan] 0).2 = (colorizePass BLACK [abSpan] 0).2) :=
  ⟨by decide, by decide,
    C1_gradient_continuity BLACK [abSpan] [aSpan, bSpan] 1 (by decide) (by decide)⟩

/-- Claim C3 counterexample: the pairing of end colors and presentation
modes is the opposite of the claimed one. In light mode (`endColorFor
false`) the code picks BLACK = (17, 24, 39), a dark color, and in dark
mode it picks WHITE = (241, 245, 249), a light one — so the claim that a
light end-color is used in light mode and a dark one in dark mode fails on
both modes. -/
theorem C3_counterexample :
    ¬ (isLightColor (endColorFor false) ∧ ¬ isLightColor (endColorFor true)) := by
  decide

/-- Claim C3 amended: on every colorization pass the end color is computed
from the presentation mode sampled at call time (two calls agreeing on
theme and spans give identical output regardless of any per-instance
state), but with the pairing the code implements: the DARK color BLACK for
light mode and the LIGHT color WHITE for dark mode. -/
theorem C3_end_color_fresh (env : ReaderEnv) (st : ReaderState)
    (hi : env.iframeAvailable = true) (he : st.enabled = true) :
    refreshReader env st = (colorizePass (endColorFor (isDarkTheme env)) env.spans 0).1
    ∧ (∀ (env2 : ReaderEnv) (st2 : ReaderState), env2.iframeAvailable = true →
        st2.enabled = true → env2.spans = env.spans →
        isDarkTheme env2 = isDarkTheme env → refreshReader env2 st2 = refreshReader env st)
    ∧ endColorFor true = WHITE ∧ endColorFor false = BLACK
    ∧ isLightColor WHITE ∧ ¬ isLightColor BLACK := by
  have hmain : refreshReader env st
      = (colorizePass (endColorFor (isDarkTheme env)) env.spans 0).1 := by
    simp [refreshReader, hi, he]
  refine ⟨hmain, ?_, rfl, rfl, by decide, by decide⟩
  intro env2 st2 hi2 he2 hsp hth
  rw [hmain]
  simp [refreshReader, hi2, he2, hsp, hth]

/-- Witness for the amended C3: a one-span environment in dark mode. -/
theorem C3_end_color_fresh_witness :
    ((⟨true, true, false, [abSpan]⟩ : ReaderEnv).iframeAvailable = true)
    ∧ ((⟨true, none, none⟩ : ReaderState).enabled = true)
    ∧ (refreshReader ⟨true, true, false, [abSpan]⟩ ⟨true, none, none⟩
          = (colorizePass (endColorFor (isDarkTheme ⟨true, true, false, [abSpan]⟩))
              [abSpan] 0).1
      ∧ (∀ (env2 : ReaderEnv) (st2 : ReaderState), env2.iframeAvailable = true →
          st2.enabled = true → env2.spans = [abSpan] →
          isDarkTheme env2 = isDarkTheme ⟨true, true, false, [abSpan]⟩ →
          refreshReader env2 st2
            = refreshReader ⟨true, true, false, [abSpan]⟩ ⟨true, none, none⟩)
      ∧ endColorFor true = WHITE ∧ endColorFor false = BLACK
      ∧ isLightColor WHITE ∧ ¬ isLightColor BLACK) :=
  ⟨rfl, rfl, C3_end_color_fresh ⟨true, true, false, [abSpan]⟩ ⟨true, none, none⟩ rfl rfl⟩

/-- Claim C5 counterexample: a toggle click on an instance with the
in-flight debounce timer handle 5 performs its immediate apply/restore
work while leaving the timer handle in place — nothing in the click
handler cancels it. -/
theorem C5_counterexample :
    ((toggleClick env0 ⟨true, some 0, some 5⟩).1).refreshTimer = some 5
    ∧ ¬ ((toggleClick env0 ⟨true, some 0, some 5⟩).1).refreshTimer = none := by
  exact ⟨rfl, by decide⟩

/-- Claim C5 amended: toggling does NOT cancel the in-flight debounce
timer — the handler only flips `enabled` and reruns `refreshReader`, and
the pending handle survives the toggle. A deliberate restore is protected
differently: the timer callback reruns `refreshReader` against the
then-current enabled flag, so a stale timer firing after a toggle to
disabled performs another restore pass, not a recolorization. -/
theorem C5_toggle_no_cancel (env envF : ReaderEnv) (st : ReaderState)
    (he : st.enabled = true) (hi : envF.iframeAvailable = true) :
    ((toggleClick env st).1).refreshTimer = st.refreshTimer
    ∧ ((toggleClick env st).1).enabled = false
    ∧ (timerFire envF (toggleClick env st).1).2 = envF.spans.map restoreSpan
    ∧ ((timerFire envF (toggleClick env st).1).1).refreshTimer = none := by
  refine ⟨rfl, by simp [toggleClick, he], ?_, rfl⟩
  simp [toggleClick, timerFire, refreshReader, he, hi]

/-- Witness for the amended C5 at a concrete enabled instance with a
pending timer and one span. -/
theorem C5_toggle_no_cancel_witness :
    ((⟨true, some 4, some 5⟩ : ReaderState).enabled = true)
    ∧ ((⟨true, false, false, [abSpan]⟩ : ReaderEnv).iframeAvailable = true)
    ∧ (((toggleClick env0 ⟨true, some 4, some 5⟩).1).refreshTimer
          = ReaderState.refreshTimer ⟨true, some 4, some 5⟩
      ∧ ((toggleClick env0 ⟨true, some 4, some 5⟩).1).enabled = false
      ∧ (timerFire ⟨true, false, false, [abSpan]⟩ (toggleClick env0 ⟨true, some 4, some 5⟩).1).2
          = [abSpan].map restoreSpan
      ∧ ((timerFire ⟨true, false, false, [abSpan]⟩
            (toggleClick env0 ⟨true, some 4, some 5⟩).1).1).refreshTimer = none) :=
  ⟨rfl, rfl, C5_toggle_no_cancel env0 ⟨true, false, false, [abSpan]⟩ ⟨true, some 4, some 5⟩ rfl rfl⟩

/-- Splitting a power of two across an exponent difference. -/
theorem zpow_shift (a b : Int) (h : a ≤ b) :
    (2 : ℚ) ^ b = (2 : ℚ) ^ a * (2 : ℚ) ^ ((b - a).toNat) := by
  rw [← zpow_natCast (2 : ℚ) ((b - a).toNat), ← zpow_add₀ (by norm_num : (2 : ℚ) ≠ 0)]
  congr 1
  omega

/-- The binary64 comparison agrees with the order of the exact values. -/
theorem flt_iff (a b : F) : flt a b = true ↔ a.toRat < b.toRat := by
  unfold flt F.toRat
  by_cases h : a.e ≤ b.e
  · rw [if_pos h]
    simp only [decide_eq_true_eq]
    rw [zpow_shift a.e b.e h]
    rw [show (b.m : ℚ) * ((2 : ℚ) ^ a.e * (2 : ℚ) ^ ((b.e - a.e).toNat))
        = (b.m : ℚ) * (2 : ℚ) ^ ((b.e - a.e).toNat) * (2 : ℚ) ^ a.e from by ring]
    rw [mul_lt_mul_right (zpow_pos (by norm_num : (0 : ℚ) < 2) a.e)]
    exact_mod_cast Iff.rfl
  · have hba : b.e ≤ a.e := le_of_not_le h
    rw [if_neg h]
    simp only [decide_eq_true_eq]
    rw [zpow_shift b.e a.e hba]
    rw [show (a.m : ℚ) * ((2 : ℚ) ^ b.e * (2 : ℚ) ^ ((a.e - b.e).toNat))
        = (a.m : ℚ) * (2 : ℚ) ^ ((a.e - b.e).toNat) * (2 : ℚ) ^ b.e from by ring]
    rw [mul_lt_mul_right (zpow_pos (by norm_num : (0 : ℚ) < 2) b.e)]
    exact_mod_cast Iff.rfl

/-- The dyadic constant 0.5 denotes the rational one half. -/
theorem halfF_toRat : halfF.toRat = 1 / 2 := by
  unfold halfF F.toRat
  norm_num

set_option maxRecDepth 100000 in
/-- On all 48 cycle positions with either end color in use, every channel
of the sampled color lies in [0, 255]: evaluation of the binary64
pipeline at the 96 reachable inputs. -/
theorem sampleColor_cycle_range :
    ∀ m ∈ List.range 48,
      inChannelRange (sampleColor (fdiv48 m) BLACK)
      ∧ inChannelRange (sampleColor (fdiv48 m) WHITE) := by decide

/-- Claim C7 counterexample: the program does not round the exact blend
to the nearest integer. At cycle position 44 with the dark mode end color
WHITE, the green channel of the claimed blend is exactly 210.5, whose
nearest rounding (ties toward positive infinity, as JS Math.round
denotes) is 211 — but the binary64 pipeline computes
38 + 207 * ((fl(44/48) - 0.5) * 2) = 210.49999999999997 and Math.round
returns 210, one below the claimed value. -/
theorem C7_counterexample :
    (sampleColor (cycleT 44) WHITE).g = 210
    ∧ roundNearest (exactBlend 38 245 (((44 : ℚ) / 48 - 1 / 2) * 2)) = 211
    ∧ (sampleColor (cycleT 44) WHITE).g
        ≠ roundNearest (exactBlend 38 245 (((44 : ℚ) / 48 - 1 / 2) * 2)) := by
  have h1 : (sampleColor (cycleT 44) WHITE).g = 210 := by decide
  have h2 : roundNearest (exactBlend 38 245 (((44 : ℚ) / 48 - 1 / 2) * 2)) = 211 := by
    unfold roundNearest exactBlend
    have hval : ((38 : ℤ) : ℚ) + (((245 : ℤ) : ℚ) - ((38 : ℤ) : ℚ))
        * (((44 : ℚ) / 48 - 1 / 2) * 2) + 1 / 2 = ((211 : ℤ) : ℚ) := by
      push_cast
      norm_num
    rw [hval, Int.floor_intCast]
  refine ⟨h1, h2, ?_⟩
  rw [h1, h2]
  decide

/-- Claim C7 amended: `sampleColor` computes the claimed two-segment
blend in binary64 floating point, not in exact arithmetic: for t < 0.5 it
blends the anchor BLUE = (26, 115, 232) toward the accent
RED = (220, 38, 38) at the binary64 product t * 2, and for t >= 0.5 the
accent toward `endColor` at the binary64 value (t - 0.5) * 2, every
multiplication and addition correctly rounded to binary64 and each
channel then rounded by JS Math.round (nearest integer, ties toward
positive infinity) — which can land one away from the nearest integer of
the exact real blend, as at cycle position 44 with the dark mode end
color. The branch test agrees exactly with t < 1/2 on the represented
value, on every reachable cycle position with either end color in use all
channels lie in [0, 255], and the function is a pure total function of
its arguments. -/
theorem C7_sampleColor (t : F) (e : RGB) (h0 : 0 ≤ t.toRat) (h1 : t.toRat < 1) :
    (t.toRat < 1 / 2 → sampleColor t e = interpolate BLUE RED (fmul t twoF))
    ∧ (1 / 2 ≤ t.toRat → sampleColor t e = interpolate RED e (fmul (fsub t halfF) twoF))
    ∧ (flt t halfF = true ↔ t.toRat < 1 / 2)
    ∧ ∀ k : Nat, inChannelRange (sampleColor (cycleT k) BLACK)
        ∧ inChannelRange (sampleColor (cycleT k) WHITE) := by
  have hiff : flt t halfF = true ↔ t.toRat < 1 / 2 := by
    rw [flt_iff, halfF_toRat]
  refine ⟨?_, ?_, hiff, ?_⟩
  · intro ht
    unfold sampleColor
    rw [if_pos (hiff.mpr ht)]
  · intro ht
    unfold sampleColor
    rw [if_neg (by rw [hiff]; exact not_lt.mpr ht)]
  · intro k
    have hk : k % CHARACTERS_PER_CYCLE < 48 := Nat.mod_lt k (by decide)
    exact sampleColor_cycle_range (k % CHARACTERS_PER_CYCLE) (List.mem_range.mpr hk)

/-- Witness for the amended C7 at the binary64 value 0. -/
theorem C7_sampleColor_witness :
    (0 ≤ F.toRat ⟨0, 0⟩) ∧ (F.toRat ⟨0, 0⟩ < 1)
    ∧ ((F.toRat ⟨0, 0⟩ < 1 / 2 →
          sampleColor ⟨0, 0⟩ BLACK = interpolate BLUE RED (fmul ⟨0, 0⟩ twoF))
      ∧ (1 / 2 ≤ F.toRat ⟨0, 0⟩ →
          sampleColor ⟨0, 0⟩ BLACK = interpolate RED BLACK (fmul (fsub ⟨0, 0⟩ halfF) twoF))
      ∧ (flt ⟨0, 0⟩ halfF = true ↔ F.toRat ⟨0, 0⟩ < 1 / 2)
      ∧ ∀ k : Nat, inChannelRange (sampleColor (cycleT k) BLACK)
          ∧ inChannelRange (sampleColor (cycleT k) WHITE)) :=
  ⟨by simp [F.toRat], by simp [F.toRat],
    C7_sampleColor ⟨0, 0⟩ BLACK (by simp [F.toRat]) (by simp [F.toRat])⟩

/-- One qualifying callback from an invariant state: whatever timer was
pending is cancelled and exactly the freshly scheduled 120-delay timer
remains, its handle stored. -/
theorem observerCallback_step (muts : List MutationRecord) (now : Nat)
    (st : ReaderState) (sched : Sched)
    (hq : batchQualifies muts = true) (hInv : SchedInv st sched) :
    observerCallback muts now st sched
      = ({ st with refreshTimer := some sched.nextId },
          ⟨sched.nextId + 1, [(sched.nextId, now + 120)]⟩) := by
  unfold observerCallback
  rw [if_neg (by simp [hq])]
  rcases hInv with ⟨h1, h2⟩ | ⟨id, t, h1, h2⟩
  · rw [h1]
    simp [setTimeout, h2]
  · rw [h1]
    simp [clearTimeout, setTimeout, h2]

/-- One-step unfolding of the batch fold. -/
theorem processBatches_cons (b : Nat × List MutationRecord)
    (rest : List (Nat × List MutationRecord)) (st : ReaderState) (sched : Sched) :
    processBatches (b :: rest) st sched
      = processBatches rest (observerCallback b.2 b.1 st sched).1
          (observerCallback b.2 b.1 st sched).2 := rfl

/-- Folding qualifying batches from an invariant state leaves exactly one
timer, scheduled 120 after the LAST batch, its handle the last allocated
one, with the handle counter advanced once per batch. -/
theorem processBatches_coalesce :
    ∀ (batches : List (Nat × List MutationRecord)) (st : ReaderState) (sched : Sched)
      (hne : batches ≠ []),
      (∀ b ∈ batches, batchQualifies b.2 = true) → SchedInv st sched →
      ((processBatches batches st sched).1).refreshTimer
          = some (sched.nextId + batches.length - 1)
      ∧ (processBatches batches st sched).2
          = ⟨sched.nextId + batches.length,
              [(sched.nextId + batches.length - 1, (batches.getLast hne).1 + 120)]⟩ := by
  intro batches
  induction batches with
  | nil => intro st sched hne; exact absurd rfl hne
  | cons b rest ih =>
    intro st sched hne hq hInv
    have hqb : batchQualifies b.2 = true := hq b (List.mem_cons_self b rest)
    have hstep := observerCallback_step b.2 b.1 st sched hqb hInv
    cases rest with
    | nil =>
      have key : processBatches [b] st sched
          = ({ st with refreshTimer := some sched.nextId },
              ⟨sched.nextId + 1, [(sched.nextId, b.1 + 120)]⟩) := by
        rw [processBatches_cons, hstep]
        rfl
      rw [key]
      simp
    | cons b2 rest2 =>
      have hne1 : b2 :: rest2 ≠ [] := by simp
      have hq1 : ∀ x ∈ b2 :: rest2, batchQualifies x.2 = true := fun x hx =>
        hq x (List.mem_cons_of_mem b hx)
      have hInv1 : SchedInv { st with refreshTimer := some sched.nextId }
          ⟨sched.nextId + 1, [(sched.nextId, b.1 + 120)]⟩ :=
        Or.inr ⟨sched.nextId, b.1 + 120, rfl, rfl⟩
      have hrec := ih { st with refreshTimer := some sched.nextId }
        ⟨sched.nextId + 1, [(sched.nextId, b.1 + 120)]⟩ hne1 hq1 hInv1
      have key : processBatches (b :: b2 :: rest2) st sched
          = processBatches (b2 :: rest2) { st with refreshTimer := some sched.nextId }
              ⟨sched.nextId + 1, [(sched.nextId, b.1 + 120)]⟩ := by
        rw [processBatches_cons, hstep]
      have hlast : (b :: b2 :: rest2).getLast hne = (b2 :: rest2).getLast hne1 :=
        List.getLast_cons hne1
      constructor
      · rw [key, hrec.1]
        congr 1
        simp only [List.length_cons]
        omega
      · rw [key, hrec.2, hlast]
        simp only [Sched.mk.injEq, List.cons.injEq, Prod.mk.injEq, List.length_cons,
          and_true]
        omega

/-- Claim C8: a qualifying batch cancels the pending timer before the new
120-delay timer is scheduled and stores the fresh handle; the timer
callback clears the handle when it fires; and a nonempty run of qualifying
batches within one coalescing window leaves exactly one timer outstanding,
scheduled 120 after the last batch — so the whole run produces exactly one
recomputation. -/
theorem C8_debounce_coalescing (muts : List MutationRecord) (now : Nat)
    (st : ReaderState) (sched : Sched) (id : Nat) (env : ReaderEnv)
    (batches : List (Nat × List MutationRecord)) (st0 : ReaderState) (sched0 : Sched)
    (hq : batchQualifies muts = true) (hrt : st.refreshTimer = some id)
    (hne : batches ≠ []) (hq2 : ∀ b ∈ batches, batchQualifies b.2 = true)
    (hInv : SchedInv st0 sched0)
    (hwin : batches.Chain' fun a b => b.1 < a.1 + 120) :
    ((observerCallback muts now st sched).2).active
        = (clearTimeout sched id).active ++ [(sched.nextId, now + 120)]
    ∧ ((observerCallback muts now st sched).1).refreshTimer = some sched.nextId
    ∧ ((processBatches batches st0 sched0).1).refreshTimer
        = some (sched0.nextId + batches.length - 1)
    ∧ ((processBatches batches st0 sched0).2).active
        = [(sched0.nextId + batches.length - 1, (batches.getLast hne).1 + 120)]
    ∧ ((processBatches batches st0 sched0).2).active.length = 1
    ∧ ((timerFire env (processBatches batches st0 sched0).1).1).refreshTimer = none := by
  have hco := processBatches_coalesce batches st0 sched0 hne hq2 hInv
  refine ⟨?_, ?_, hco.1, ?_, ?_, rfl⟩
  · unfold observerCallback
    rw [if_neg (by simp [hq]), hrt]
    simp [setTimeout, clearTimeout]
  · unfold observerCallback
    rw [if_neg (by simp [hq]), hrt]
    rfl
  · rw [hco.2]
  · rw [hco.2]
    rfl

/-- Witness for C8: two qualifying batches at times 0 and 50 against an
instance whose pending timer handle 1 is active at time 100. -/
theorem C8_debounce_coalescing_witness :
    batchQualifies muts0 = true
    ∧ (⟨true, none, some 1⟩ : ReaderState).refreshTimer = some 1
    ∧ ([(0, muts0), (50, muts0)] : List (Nat × List MutationRecord)) ≠ []
    ∧ (∀ b ∈ ([(0, muts0), (50, muts0)] : List (Nat × List MutationRecord)),
        batchQualifies b.2 = true)
    ∧ SchedInv ⟨true, none, some 1⟩ ⟨2, [(1, 100)]⟩
    ∧ (([(0, muts0), (50, muts0)] : List (Nat × List MutationRecord)).Chain'
        fun a b => b.1 < a.1 + 120)
    ∧ (((observerCallback muts0 0 ⟨true, none, some 1⟩ ⟨2, [(1, 100)]⟩).2).active
          = (clearTimeout ⟨2, [(1, 100)]⟩ 1).active ++ [(2, 0 + 120)]
      ∧ ((observerCallback muts0 0 ⟨true, none, some 1⟩ ⟨2, [(1, 100)]⟩).1).refreshTimer
          = some 2
      ∧ ((processBatches [(0, muts0), (50, muts0)] ⟨true, none, some 1⟩
            ⟨2, [(1, 100)]⟩).1).refreshTimer = some 3
      ∧ ((processBatches [(0, muts0), (50, muts0)] ⟨true, none, some 1⟩
            ⟨2, [(1, 100)]⟩).2).active = [(3, 170)]
      ∧ ((processBatches [(0, muts0), (50, muts0)] ⟨true, none, some 1⟩
            ⟨2, [(1, 100)]⟩).2).active.length = 1
      ∧ ((timerFire env0 (processBatches [(0, muts0), (50, muts0)] ⟨true, none, some 1⟩
            ⟨2, [(1, 100)]⟩).1).1).refreshTimer = none) :=
  ⟨by decide, rfl, by decide, by decide, Or.inr ⟨1, 100, rfl, rfl⟩,
    List.chain'_cons.mpr ⟨by omega, List.chain'_singleton _⟩,
    C8_debounce_coalescing muts0 0 ⟨true, none, some 1⟩ ⟨2, [(1, 100)]⟩ 1 env0
      [(0, muts0), (50, muts0)] ⟨true, none, some 1⟩ ⟨2, [(1, 100)]⟩
      (by decide) rfl (by decide) (by decide) (Or.inr ⟨1, 100, rfl, rfl⟩)
      (List.chain'_cons.mpr ⟨by omega, List.chain'_singleton _⟩)⟩

/-- Installing over an instance that already holds an observer handle is a
no-op, whatever the environment. -/
theorem observe_noop (env : ObserveEnv) (st : ReaderState) (f h : Nat)
    (hobs : st.observer = some h) :
    observeReaderTextLayer env st f = (st, false) := by
  cases hi : env.iframeAvailable <;> simp [observeReaderTextLayer, hi, hobs]

/-- Every install call either changes nothing or, when no observer was
present, installs exactly the fresh handle. -/
theorem observe_cases (env : ObserveEnv) (st : ReaderState) (f : Nat) :
    observeReaderTextLayer env st f = (st, false)
    ∨ (st.observer = none
        ∧ observeReaderTextLayer env st f = ({ st with observer := some f }, true)) := by
  by_cases h1 : env.iframeAvailable
  · by_cases h2 : st.observer.isSome
    · exact Or.inl (by simp [observeReaderTextLayer, h1, h2])
    · have hnone : st.observer = none := Option.not_isSome_iff_eq_none.mp h2
      by_cases h3 : env.bodyAvailable
      · exact Or.inr ⟨hnone, by simp [observeReaderTextLayer, h1, h2, h3]⟩
      · exact Or.inl (by simp [observeReaderTextLayer, h1, h2, h3])
  · exact Or.inl (by simp [observeReaderTextLayer, h1])

/-- Repeated install calls over an instance that holds an observer handle
change nothing and create nothing. -/
theorem installMany_stable (calls : List (ObserveEnv × Nat)) (st : ReaderState)
    (h : Nat) (hobs : st.observer = some h) :
    installMany calls st = (st, 0) := by
  induction calls with
  | nil => rfl
  | cons c rest ih =>
    simp only [installMany]
    rw [observe_noop c.1 st c.2 h hobs, ih]
    rfl

/-- Any sequence of install calls creates at most one observer. -/
theorem installMany_count_le_one :
    ∀ (calls : List (ObserveEnv × Nat)) (st : ReaderState),
      (installMany calls st).2 ≤ 1 := by
  intro calls
  induction calls with
  | nil => intro st; simp [installMany]
  | cons c rest ih =>
    intro st
    rcases observe_cases c.1 st c.2 with hno | ⟨hnone, hyes⟩
    · simp only [installMany]
      rw [hno]
      simpa using ih st
    · simp only [installMany]
      rw [hyes, installMany_stable rest _ c.2 rfl]
      simp

/-- Claim C9: installing the watcher for an instance whose state already
holds a watcher handle is a no-op; across any sequence of install calls
the stored handle never changes, no further observer is created, and at
most one observer is ever created for any starting state. -/
theorem C9_single_watcher (env : ObserveEnv) (st : ReaderState) (h fresh : Nat)
    (calls : List (ObserveEnv × Nat)) (hobs : st.observer = some h) :
    observeReaderTextLayer env st fresh = (st, false)
    ∧ ((installMany calls st).1).observer = some h
    ∧ (installMany calls st).2 = 0
    ∧ ∀ st0 : ReaderState, (installMany calls st0).2 ≤ 1 := by
  have hstable := installMany_stable calls st h hobs
  exact ⟨observe_noop env st fresh h hobs, by rw [hstable]; exact hobs,
    by rw [hstable], fun st0 => installMany_count_le_one calls st0⟩

/-- Witness for C9 at an instance holding observer handle 4. -/
theorem C9_single_watcher_witness :
    ((⟨true, some 4, none⟩ : ReaderState).observer = some 4)
    ∧ (observeReaderTextLayer ⟨true, true⟩ ⟨true, some 4, none⟩ 9
          = (⟨true, some 4, none⟩, false)
      ∧ ((installMany [(⟨true, true⟩, 9), (⟨true, true⟩, 11)]
            ⟨true, some 4, none⟩).1).observer = some 4
      ∧ (installMany [(⟨true, true⟩, 9), (⟨true, true⟩, 11)]
            ⟨true, some 4, none⟩).2 = 0
      ∧ ∀ st0 : ReaderState,
          (installMany [(⟨true, true⟩, 9), (⟨true, true⟩, 11)] st0).2 ≤ 1) :=
  ⟨rfl, C9_single_watcher ⟨true, true⟩ ⟨true, some 4, none⟩ 4 9
    [(⟨true, true⟩, 9), (⟨true, true⟩, 11)] rfl⟩

/-- A registry tracking the single instance `a`, which holds watcher
handle 0 and pending timer handle 7. -/
def regA : Registry := [("a", ⟨true, some 0, some 7⟩)]

/-- Claim C10 counterexample: `stop` iterates the HOST reader list, not
the registry. With instance `a` tracked — watcher handle 0, pending timer
handle 7 — but its reader absent from the host list, stop produces no
clear effects at all (the watcher is never disconnected, the timer never
cancelled) while still emptying the registry; and even with the reader
present, the pending timer is not cancelled when the content root is
unavailable. -/
theorem C10_counterexample :
    lookupState regA "a" = some ⟨true, some 0, some 7⟩
    ∧ (stop regA []).1 = []
    ∧ (stop regA []).2 = []
    ∧ (clearReader regA ⟨"a", false, []⟩).timerCancelled = false := by
  exact ⟨rfl, rfl, rfl, rfl⟩

/-- Claim C10 amended: on global stop the registry is emptied, and for
every tracked instance whose reader IS in the host reader list a clear
effect is produced that disconnects its watcher whenever one is present,
cancels its pending timer whenever the content root is available, and —
when the content root is available — forces a restore pass after which no
span carries the colorized marker. Tracked instances absent from the host
list are not cleared, and no timer is cancelled without a content root. -/
theorem C10_stop_teardown (reg : Registry) (readers : List Reader) (r : Reader)
    (st : ReaderState) (hr : r ∈ readers)
    (hst : lookupState reg r.instanceID = some st) :
    (stop reg readers).2 = []
    ∧ clearReader reg r ∈ (stop reg readers).1
    ∧ (clearReader reg r).observerDisconnected = st.observer.isSome
    ∧ (r.iframeAvailable = true →
        (clearReader reg r).timerCancelled = st.refreshTimer.isSome
        ∧ (clearReader reg r).restoredSpans = some (r.spans.map restoreSpan)
        ∧ ∀ sp ∈ r.spans.map restoreSpan, sp.beelineApplied ≠ some "1") := by
  refine ⟨rfl, List.mem_map_of_mem (clearReader reg) hr, ?_, ?_⟩
  · simp [clearReader, hst]
  · intro hif
    refine ⟨by simp [clearReader, hst, hif], by simp [clearReader, hst, hif], ?_⟩
    intro sp hsp
    obtain ⟨x, _, hx⟩ := List.mem_map.mp hsp
    rw [← hx]
    exact restoreSpan_clears_marker x

/-- Witness for the amended C10: the tracked instance `a` with an applied
span, its reader present in the host list with the content root available. -/
theorem C10_stop_teardown_witness :
    ((⟨"a", true, [⟨SpanContent.text "q", some "q", some "1"⟩]⟩ : Reader)
        ∈ [(⟨"a", true, [⟨SpanContent.text "q", some "q", some "1"⟩]⟩ : Reader)])
    ∧ lookupState regA "a" = some ⟨true, some 0, some 7⟩
    ∧ ((stop regA [⟨"a", true, [⟨SpanContent.text "q", some "q", some "1"⟩]⟩]).2 = []
      ∧ clearReader regA ⟨"a", true, [⟨SpanContent.text "q", some "q", some "1"⟩]⟩
          ∈ (stop regA [⟨"a", true, [⟨SpanContent.text "q", some "q", some "1"⟩]⟩]).1
      ∧ (clearReader regA ⟨"a", true, [⟨SpanContent.text "q", some "q", some "1"⟩]⟩).observerDisconnected
          = (Option.some 0).isSome
      ∧ ((⟨"a", true, [⟨SpanContent.text "q", some "q", some "1"⟩]⟩ : Reader).iframeAvailable = true →
          (clearReader regA ⟨"a", true, [⟨SpanContent.text "q", some "q", some "1"⟩]⟩).timerCancelled
            = (Option.some 7).isSome
          ∧ (clearReader regA ⟨"a", true, [⟨SpanContent.text "q", some "q", some "1"⟩]⟩).restoredSpans
            = some ([⟨SpanContent.text "q", some "q", some "1"⟩].map restoreSpan)
          ∧ ∀ sp ∈ ([⟨SpanContent.text "q", some "q", some "1"⟩] : List Span).map restoreSpan,
              sp.beelineApplied ≠ some "1")) :=
  ⟨by decide, rfl,
    C10_stop_teardown regA [⟨"a", true, [⟨SpanContent.text "q", some "q", some "1"⟩]⟩]
      ⟨"a", true, [⟨SpanContent.text "q", some "q", some "1"⟩]⟩
      ⟨true, some 0, some 7⟩ (by decide) rfl⟩

end Waspline
